import Mathlib

/-!
Verification of the pump-report analysis core (classifier, amperage analyzer,
efficiency analyzer, report assembler) of the PumpAnalutics repository,
shallowly embedded from `app.py`.

Embedding notes:
- Python floats are modelled as rationals (ℚ); every comparison the code makes
  on readings (`> 0`, band boundaries 90/92/94, thresholds 10 and 3) is exact
  on the doubles involved, so ℚ is faithful for those decisions.
- A pandas DataFrame is modelled as a `PumpTable`: a schema (`columns`, the
  trimmed column-name strings) and a list of rows; a row carries its numeric
  cells as an association list plus the optional `Pump Sr. No` value (a string,
  since it is only ever interpolated into unit ids, never compared).  A NaN
  cell behaves exactly like 0 under every comparison the code performs, so a
  missing cell reads as 0.
- `row.get(col, 0)` (pandas) returns the default when the column is absent
  from the schema; `tGet` reproduces that.
-/

namespace Pump

/-- Result of `determine_pump_type` in `app.py`: the two pump configurations. -/
inductive PumpType
  | Single
  | Tandem
deriving DecidableEq, Repr

/-- One data row of a sheet: the optional `Pump Sr. No` cell and the numeric
cells keyed by column name. -/
structure Row where
  srNo : Option String
  cells : List (String × ℚ)
deriving DecidableEq, Repr

/-- Value of a cell in a row; a missing cell reads as 0 (the behaviour a NaN
cell has under every comparison the code performs). -/
def Row.val (r : Row) (c : String) : ℚ :=
  match r.cells.find? (fun p => p.1 == c) with
  | some p => p.2
  | none => 0

/-- One worksheet after header trimming: its sheet name, its schema of trimmed
column names, and its rows. -/
structure PumpTable where
  label : String
  columns : List String
  rows : List Row
deriving DecidableEq, Repr

/-- Boolean substring occurrence test on character lists, used to embed the
Python `in` operator on strings. -/
def occursIn (pat : List Char) : List Char → Bool
  | [] => pat.isEmpty
  | c :: t => pat.isPrefixOf (c :: t) || occursIn pat t

/-- ASCII lowercase of one character, embedding Python `str.lower` on the
ASCII sheet labels and column names the code compares. -/
def lowerChar (c : Char) : Char :=
  if c.toNat < 65 then c
  else if c.toNat ≤ 90 then Char.ofNat (c.toNat + 32)
  else c

/-- Python `pat in s` for strings. -/
def strContains (s pat : String) : Bool := occursIn pat.toList s.toList

/-- Python `pat in s.lower()` for strings. -/
def strContainsLower (s pat : String) : Bool :=
  occursIn pat.toList (s.toList.map lowerChar)

/-- Embedding of `determine_pump_type(df, sheet_name)` from `app.py`:
label check first, then the substring-based `Eff%P2` column scan, then the
strict-majority test `non_zero_p2_eff > len(df) * 0.5`. -/
def determine_pump_type (t : PumpTable) : PumpType :=
  if strContainsLower t.label "single" then PumpType.Single
  else if strContainsLower t.label "tandem" then PumpType.Tandem
  else
    let p2_columns := t.columns.filter (fun c => strContains c "P2" && strContains c "Eff%P2")
    if p2_columns.isEmpty then PumpType.Single
    else
      let non_zero_p2_eff : ℕ :=
        if "Eff%P2" ∈ t.columns then (t.rows.filter (fun r => 0 < r.val "Eff%P2")).length
        else 0
      if (t.rows.length : ℚ) * (1 / 2) < (non_zero_p2_eff : ℚ) then PumpType.Tandem
      else PumpType.Single

/-- Classification rule as the specification words it (section 4.1 of the
spec): label first, then presence of the exact `Eff%P2` field, then the
strict 50% majority of records with `Eff%P2 > 0`. -/
def classifySpec (t : PumpTable) : PumpType :=
  if strContainsLower t.label "single" then PumpType.Single
  else if strContainsLower t.label "tandem" then PumpType.Tandem
  else if "Eff%P2" ∈ t.columns then
    (if (t.rows.length : ℚ) * (1 / 2) < ((t.rows.filter (fun r => 0 < r.val "Eff%P2")).length : ℚ)
     then PumpType.Tandem else PumpType.Single)
  else PumpType.Single

lemma filter_p2_nonempty {t : PumpTable} (h : "Eff%P2" ∈ t.columns) :
    (t.columns.filter (fun c => strContains c "P2" && strContains c "Eff%P2")).isEmpty = false := by
  have hmem : "Eff%P2" ∈ t.columns.filter (fun c => strContains c "P2" && strContains c "Eff%P2") := by
    refine List.mem_filter.mpr ⟨h, ?_⟩
    decide
  cases hfil : t.columns.filter (fun c => strContains c "P2" && strContains c "Eff%P2") with
  | nil => rw [hfil] at hmem; exact absurd hmem (List.not_mem_nil _)
  | cons a l => simp [List.isEmpty]

/-- Claim C2: `determine_pump_type` follows exactly the priority order the
spec describes — label substring "single", label substring "tandem", absence
of the `Eff%P2` field, then the strict-majority test on `Eff%P2 > 0`. -/
theorem determine_pump_type_eq_classifySpec (t : PumpTable) :
    determine_pump_type t = classifySpec t := by
  unfold determine_pump_type classifySpec
  by_cases hs : strContainsLower t.label "single"
  · simp [hs]
  · by_cases ht : strContainsLower t.label "tandem"
    · simp [hs, ht]
    · simp only [hs, ht, Bool.false_eq_true, if_false]
      by_cases hmem : "Eff%P2" ∈ t.columns
      · rw [filter_p2_nonempty hmem]
        simp [hmem]
      · simp only [hmem, if_false]
        cases hfil : (t.columns.filter (fun c => strContains c "P2" && strContains c "Eff%P2")).isEmpty with
        | true => simp
        | false =>
          simp only [hmem, if_false, if_true, Bool.false_eq_true]
          have hnn : ¬ ((t.rows.length : ℚ) * (1 / 2) < ((0 : ℕ) : ℚ)) := by
            push_neg
            positivity
          simp [hnn]

/-- A zero-record table whose label contains "tandem": the classifier answers
`Tandem` from the label alone, refuting the unconditional form of claim C3. -/
def emptyTandemTable : PumpTable :=
  { label := "TandemPump", columns := [], rows := [] }

/-- Claim C3, counterexample: a table with zero records whose label contains
"tandem" is classified Tandem, not Single, so "regardless of its label" fails. -/
theorem classify_empty_table_not_single :
    emptyTandemTable.rows.length = 0 ∧
      determine_pump_type emptyTandemTable ≠ PumpType.Single := by
  constructor
  · rfl
  · decide

/-- Claim C3 as amended: a table with zero records whose label does not
contain "tandem" (case-insensitively) is classified Single. -/
theorem classify_empty_table_single (t : PumpTable)
    (h0 : t.rows = [])
    (hlab : strContainsLower t.label "tandem" = false) :
    determine_pump_type t = PumpType.Single := by
  unfold determine_pump_type
  by_cases hs : strContainsLower t.label "single"
  · simp [hs]
  · simp only [hs, hlab, Bool.false_eq_true, if_false]
    cases hfil : (t.columns.filter (fun c => strContains c "P2" && strContains c "Eff%P2")).isEmpty with
    | true => simp
    | false =>
      have hz : ¬ ((t.rows.length : ℚ) * (1 / 2) <
          ((if "Eff%P2" ∈ t.columns then (t.rows.filter (fun r => 0 < r.val "Eff%P2")).length else 0 : ℕ) : ℚ)) := by
        rw [h0]
        simp
      simp only [Bool.false_eq_true, if_false, hz]

/-- Witness for the amended claim C3 at a concrete empty table. -/
theorem classify_empty_table_single_witness :
    determine_pump_type { label := "Sheet1", columns := ["Eff%P1"], rows := [] } = PumpType.Single :=
  classify_empty_table_single { label := "Sheet1", columns := ["Eff%P1"], rows := [] }
    rfl (by decide)

/-- One entry of `pump_data` as built by `analyze_pump_data`: the sheet's
data plus the configuration decided once by `determine_pump_type`. -/
structure SheetData where
  label : String
  columns : List String
  rows : List Row
deriving DecidableEq, Repr

/-- The configuration field of a `pump_data` entry; bundled separately so the
analyzers consume `(data, type)` pairs exactly as the code does. -/
structure Sheet where
  data : SheetData
  ptype : PumpType
deriving DecidableEq, Repr

/-- Pandas `row.get(col, 0)`: the cell value when the column is in the sheet's
schema, the default 0 otherwise. -/
def tGet (s : SheetData) (r : Row) (c : String) : ℚ :=
  if c ∈ s.columns then r.val c else 0

/-- Building one `pump_data` entry from a table, as `analyze_pump_data` does:
the configuration is computed once by `determine_pump_type` and stored. -/
def mkSheet (t : PumpTable) : Sheet :=
  { data := { label := t.label, columns := t.columns, rows := t.rows },
    ptype := determine_pump_type t }

/-- The `pump_data` dictionary (insertion-ordered) as a list of sheets. -/
def mkPumpData (ts : List PumpTable) : List Sheet := ts.map mkSheet

/-- The two pressure conditions `0_bar` and `200_bar`. -/
inductive Cond
  | bar0
  | bar200
deriving DecidableEq, Repr

/-- P1 amperage column name for a condition, as built in `analyze_amperage`. -/
def p1ColName : Cond → String
  | Cond.bar0 => "0 Bar Amp P1"
  | Cond.bar200 => "200 Bar Amp P1"

/-- P2 amperage column name for a condition, as built in `analyze_amperage`. -/
def p2ColName : Cond → String
  | Cond.bar0 => "0 Bar Amp P2"
  | Cond.bar200 => "200 Bar Amp P2"

/-- Python `condition.replace('_', ' ').title()`. -/
def condName : Cond → String
  | Cond.bar0 => "0 Bar"
  | Cond.bar200 => "200 Bar"

/-- The unit id `row.get('Pump Sr. No', f'Unit_{idx+1}')`. -/
def unitId (r : Row) (idx : ℕ) : String :=
  match r.srNo with
  | some s => s
  | none => "Unit_" ++ toString (idx + 1)

/-- One tandem amperage match entry as appended to
`amp_analysis[condition]['tandem_analysis']`. -/
structure TandemAmpMatch where
  unit_id : String
  p1_amp : ℚ
  p2_amp : ℚ
  difference : ℚ
  percentage_diff : ℚ
deriving DecidableEq, Repr

/-- Accumulator state of `analyze_amperage` for one condition while the sheet
loop runs: `min` is `none` while still at the `float('inf')` sentinel. -/
structure AmpAcc where
  min? : Option ℚ
  max : ℚ
  unit_count : ℕ
  tandem_analysis : List TandemAmpMatch
deriving DecidableEq, Repr

/-- Initial accumulator `{'min': float('inf'), 'max': 0, 'unit_count': 0,
'tandem_analysis': []}`. -/
def ampInit : AmpAcc :=
  { min? := none, max := 0, unit_count := 0, tandem_analysis := [] }

/-- Folding one value into the running minimum that starts at the infinity
sentinel. -/
def foldMin (o : Option ℚ) (x : ℚ) : Option ℚ :=
  match o with
  | none => some x
  | some m => some (min m x)

/-- Minimum of a list (`Series.min()`), `none` on the empty list. -/
def listMin : List ℚ → Option ℚ
  | [] => none
  | x :: xs => some (xs.foldl min x)

/-- Maximum of a list (`Series.max()`), `none` on the empty list. -/
def listMax : List ℚ → Option ℚ
  | [] => none
  | x :: xs => some (xs.foldl max x)

/-- Single-pump branch of the `analyze_amperage` sheet loop for one
condition: fold the positive P1 values into min/max and count every row as a
unit, but only when the P1 column is present. -/
def ampSingleStep (c : Cond) (acc : AmpAcc) (s : SheetData) : AmpAcc :=
  if p1ColName c ∈ s.columns then
    let non_zero_values := (s.rows.map (fun r => r.val (p1ColName c))).filter (fun v => 0 < v)
    let acc1 :=
      match listMin non_zero_values, listMax non_zero_values with
      | some mn, some mx => { acc with min? := foldMin acc.min? mn, max := max acc.max mx }
      | _, _ => acc
    { acc1 with unit_count := acc1.unit_count + s.rows.length }
  else acc

/-- Body of the tandem row loop of `analyze_amperage`: when both sides are
strictly positive, append the match entry and fold both values into min/max. -/
def ampTandemRowStep (c : Cond) (acc : AmpAcc) (ir : ℕ × Row) : AmpAcc :=
  let p1_amp := ir.2.val (p1ColName c)
  let p2_amp := ir.2.val (p2ColName c)
  if 0 < p1_amp ∧ 0 < p2_amp then
    { min? := foldMin (foldMin acc.min? p1_amp) p2_amp,
      max := max (max acc.max p1_amp) p2_amp,
      unit_count := acc.unit_count,
      tandem_analysis := acc.tandem_analysis ++
        [{ unit_id := unitId ir.2 ir.1, p1_amp := p1_amp, p2_amp := p2_amp,
           difference := |p1_amp - p2_amp|,
           percentage_diff := |p1_amp - p2_amp| / max p1_amp p2_amp * 100 }] }
  else acc

/-- Tandem branch of the `analyze_amperage` sheet loop for one condition:
requires both columns, iterates the rows, then counts every row as a unit. -/
def ampTandemStep (c : Cond) (acc : AmpAcc) (s : SheetData) : AmpAcc :=
  if p1ColName c ∈ s.columns ∧ p2ColName c ∈ s.columns then
    let acc1 := s.rows.enum.foldl (ampTandemRowStep c) acc
    { acc1 with unit_count := acc1.unit_count + s.rows.length }
  else acc

/-- One iteration of the sheet loop of `analyze_amperage` for one condition. -/
def ampSheetStep (c : Cond) (acc : AmpAcc) (s : Sheet) : AmpAcc :=
  match s.ptype with
  | PumpType.Single => ampSingleStep c acc s.data
  | PumpType.Tandem => ampTandemStep c acc s.data

/-- Final per-condition result of `analyze_amperage`, after the step-5
substitution of the infinity sentinel by 0. -/
structure AmpStat where
  min : ℚ
  max : ℚ
  unit_count : ℕ
  tandem_analysis : List TandemAmpMatch
deriving DecidableEq, Repr

/-- Embedding of `analyze_amperage(pump_data)` for one condition: fold the
sheet loop from the initial sentinel state, then replace an untouched
infinity minimum by 0 — once, after all sheets. -/
def analyze_amperage (ds : List Sheet) (c : Cond) : AmpStat :=
  let acc := ds.foldl (ampSheetStep c) ampInit
  { min := acc.min?.getD 0, max := acc.max, unit_count := acc.unit_count,
    tandem_analysis := acc.tandem_analysis }

/-- Amperage readings of one row that the analyzer folds for a tandem sheet:
both values when both are strictly positive, nothing otherwise. -/
def ampRowVals (c : Cond) (r : Row) : List ℚ :=
  if 0 < r.val (p1ColName c) ∧ 0 < r.val (p2ColName c) then
    [r.val (p1ColName c), r.val (p2ColName c)]
  else []

/-- Spec-side description of the strictly-positive amperage readings one sheet
contributes to min/max for a condition (section 4.2 of the spec): positive P1
values of a Single sheet with the column present; both values of the
both-positive rows of a Tandem sheet with both columns present. -/
def sheetAmpValsSpec (c : Cond) (s : Sheet) : List ℚ :=
  match s.ptype with
  | PumpType.Single =>
    if p1ColName c ∈ s.data.columns then
      (s.data.rows.map (fun r => r.val (p1ColName c))).filter (fun v => 0 < v)
    else []
  | PumpType.Tandem =>
    if p1ColName c ∈ s.data.columns ∧ p2ColName c ∈ s.data.columns then
      (s.data.rows.map (ampRowVals c)).flatten
    else []

/-- All strictly-positive amperage readings selected for a condition across
the whole run, in fold order. -/
def collectedAmpsSpec (c : Cond) (ds : List Sheet) : List ℚ :=
  (ds.map (sheetAmpValsSpec c)).flatten

/-- The match entry the tandem row loop emits for one indexed row, when it
emits one. -/
def ampRowMatch (c : Cond) (ir : ℕ × Row) : Option TandemAmpMatch :=
  if 0 < ir.2.val (p1ColName c) ∧ 0 < ir.2.val (p2ColName c) then
    some { unit_id := unitId ir.2 ir.1,
           p1_amp := ir.2.val (p1ColName c), p2_amp := ir.2.val (p2ColName c),
           difference := |ir.2.val (p1ColName c) - ir.2.val (p2ColName c)|,
           percentage_diff := |ir.2.val (p1ColName c) - ir.2.val (p2ColName c)| /
             max (ir.2.val (p1ColName c)) (ir.2.val (p2ColName c)) * 100 }
  else none

/-- Spec-side description of the tandem amperage match entries one sheet
emits for a condition: exactly one entry per row with both sides strictly
positive, on Tandem sheets with both columns present. -/
def sheetAmpMatchesSpec (c : Cond) (s : Sheet) : List TandemAmpMatch :=
  match s.ptype with
  | PumpType.Single => []
  | PumpType.Tandem =>
    if p1ColName c ∈ s.data.columns ∧ p2ColName c ∈ s.data.columns then
      s.data.rows.enum.filterMap (ampRowMatch c)
    else []

/-- Units a sheet adds to `unit_count` for a condition: its full row count
whenever the needed columns are present, nothing otherwise. -/
def ampUnitInc (c : Cond) (s : Sheet) : ℕ :=
  match s.ptype with
  | PumpType.Single => if p1ColName c ∈ s.data.columns then s.data.rows.length else 0
  | PumpType.Tandem =>
    if p1ColName c ∈ s.data.columns ∧ p2ColName c ∈ s.data.columns then s.data.rows.length
    else 0

lemma foldl_min_assoc (xs : List ℚ) (a x : ℚ) :
    xs.foldl min (min a x) = min a (xs.foldl min x) := by
  induction xs generalizing x with
  | nil => rfl
  | cons y ys ih =>
    simp only [List.foldl_cons]
    rw [min_assoc, ih]

lemma foldl_max_assoc (xs : List ℚ) (a x : ℚ) :
    xs.foldl max (max a x) = max a (xs.foldl max x) := by
  induction xs generalizing x with
  | nil => rfl
  | cons y ys ih =>
    simp only [List.foldl_cons]
    rw [max_assoc, ih]

lemma foldl_foldMin_some (l : List ℚ) (a : ℚ) :
    l.foldl foldMin (some a) = some (l.foldl min a) := by
  induction l generalizing a with
  | nil => rfl
  | cons x xs ih => simp only [List.foldl_cons, foldMin, ih]

lemma foldl_foldMin_none (l : List ℚ) :
    l.foldl foldMin none = listMin l := by
  cases l with
  | nil => rfl
  | cons x xs => simp only [List.foldl_cons, foldMin, listMin, foldl_foldMin_some]

lemma foldMin_listMin (o : Option ℚ) (x : ℚ) (xs : List ℚ) :
    foldMin o (xs.foldl min x) = (x :: xs).foldl foldMin o := by
  cases o with
  | none => simp only [foldMin, List.foldl_cons, foldl_foldMin_some]
  | some a =>
    simp only [foldMin, List.foldl_cons, foldl_foldMin_some, foldl_min_assoc]

lemma max_foldl_max (a x : ℚ) (xs : List ℚ) :
    max a (xs.foldl max x) = (x :: xs).foldl max a := by
  simp only [List.foldl_cons, foldl_max_assoc]

lemma ampRowLoop_spec (c : Cond) (l : List (ℕ × Row)) (acc : AmpAcc) :
    l.foldl (ampTandemRowStep c) acc =
    { min? := ((l.map (fun ir => ampRowVals c ir.2)).flatten).foldl foldMin acc.min?,
      max := ((l.map (fun ir => ampRowVals c ir.2)).flatten).foldl max acc.max,
      unit_count := acc.unit_count,
      tandem_analysis := acc.tandem_analysis ++ l.filterMap (ampRowMatch c) } := by
  induction l generalizing acc with
  | nil => simp
  | cons ir l ih =>
    simp only [List.foldl_cons, List.map_cons, List.flatten_cons, List.filterMap_cons]
    rw [ih]
    by_cases h : 0 < ir.2.val (p1ColName c) ∧ 0 < ir.2.val (p2ColName c)
    · simp only [ampTandemRowStep, ampRowVals, ampRowMatch, h, if_pos]
      simp [List.append_assoc]
    · simp only [ampTandemRowStep, ampRowVals, ampRowMatch, h, if_neg, not_false_iff]
      simp

lemma ampSheetStep_spec (c : Cond) (acc : AmpAcc) (s : Sheet) :
    ampSheetStep c acc s =
    { min? := (sheetAmpValsSpec c s).foldl foldMin acc.min?,
      max := (sheetAmpValsSpec c s).foldl max acc.max,
      unit_count := acc.unit_count + ampUnitInc c s,
      tandem_analysis := acc.tandem_analysis ++ sheetAmpMatchesSpec c s } := by
  cases s with
  | mk d pt =>
    cases pt with
    | Single =>
      simp only [ampSheetStep, ampSingleStep, sheetAmpValsSpec, sheetAmpMatchesSpec, ampUnitInc]
      by_cases hcol : p1ColName c ∈ d.columns
      · simp only [hcol, if_pos]
        cases hnz : (d.rows.map (fun r => r.val (p1ColName c))).filter (fun v => 0 < v) with
        | nil => simp [listMin, listMax]
        | cons x xs =>
          simp only [listMin, listMax]
          rw [foldMin_listMin, max_foldl_max]
          simp
      · simp [hcol]
    | Tandem =>
      simp only [ampSheetStep, ampTandemStep, sheetAmpValsSpec, sheetAmpMatchesSpec, ampUnitInc]
      by_cases hcol : p1ColName c ∈ d.columns ∧ p2ColName c ∈ d.columns
      · have henum : d.rows.enum.map (fun ir => ampRowVals c ir.2) = d.rows.map (ampRowVals c) := by
          have h2 : (d.rows.enum.map Prod.snd).map (ampRowVals c) = d.rows.map (ampRowVals c) := by
            rw [List.enum_map_snd]
          rw [← h2, List.map_map]
          rfl
        simp only [hcol, and_self, ite_true]
        rw [ampRowLoop_spec, henum]
      · simp [hcol]

lemma amp_fold_spec (c : Cond) (ds : List Sheet) (acc : AmpAcc) :
    ds.foldl (ampSheetStep c) acc =
    { min? := (collectedAmpsSpec c ds).foldl foldMin acc.min?,
      max := (collectedAmpsSpec c ds).foldl max acc.max,
      unit_count := acc.unit_count + (ds.map (ampUnitInc c)).sum,
      tandem_analysis := acc.tandem_analysis ++ (ds.map (sheetAmpMatchesSpec c)).flatten } := by
  induction ds generalizing acc with
  | nil => simp [collectedAmpsSpec]
  | cons s ds ih =>
    simp only [List.foldl_cons, List.map_cons, List.sum_cons, List.flatten_cons]
    rw [ampSheetStep_spec, ih]
    simp only [collectedAmpsSpec, List.map_cons, List.flatten_cons, List.foldl_append]
    simp [List.append_assoc, Nat.add_assoc]

lemma collectedAmps_pos (c : Cond) (ds : List Sheet) :
    ∀ v ∈ collectedAmpsSpec c ds, 0 < v := by
  intro v hv
  rcases List.mem_flatten.mp hv with ⟨l, hl, hvl⟩
  rcases List.mem_map.mp hl with ⟨s, _, rfl⟩
  cases s with
  | mk d pt =>
    cases pt with
    | Single =>
      simp only [sheetAmpValsSpec] at hvl
      by_cases hcol : p1ColName c ∈ d.columns
      · rw [if_pos hcol] at hvl
        have := List.mem_filter.mp hvl
        exact of_decide_eq_true this.2
      · rw [if_neg hcol] at hvl
        exact absurd hvl (List.not_mem_nil _)
    | Tandem =>
      simp only [sheetAmpValsSpec] at hvl
      by_cases hcol : p1ColName c ∈ d.columns ∧ p2ColName c ∈ d.columns
      · rw [if_pos hcol] at hvl
        rcases List.mem_flatten.mp hvl with ⟨l2, hl2, hvl2⟩
        rcases List.mem_map.mp hl2 with ⟨r, _, rfl⟩
        simp only [ampRowVals] at hvl2
        by_cases hpos : 0 < r.val (p1ColName c) ∧ 0 < r.val (p2ColName c)
        · rw [if_pos hpos] at hvl2
          simp only [List.mem_cons, List.not_mem_nil, or_false] at hvl2
          rcases hvl2 with h | h
          · rw [h]; exact hpos.1
          · rw [h]; exact hpos.2
        · rw [if_neg hpos] at hvl2
          exact absurd hvl2 (List.not_mem_nil _)
      · rw [if_neg hcol] at hvl
        exact absurd hvl (List.not_mem_nil _)

lemma analyze_amperage_min_eq (ds : List Sheet) (c : Cond) :
    (analyze_amperage ds c).min = (listMin (collectedAmpsSpec c ds)).getD 0 := by
  simp only [analyze_amperage, amp_fold_spec, ampInit, foldl_foldMin_none]

lemma analyze_amperage_max_eq (ds : List Sheet) (c : Cond) :
    (analyze_amperage ds c).max = (listMax (collectedAmpsSpec c ds)).getD 0 := by
  simp only [analyze_amperage, amp_fold_spec, ampInit]
  cases hl : collectedAmpsSpec c ds with
  | nil => rfl
  | cons x xs =>
    have hx : 0 < x := collectedAmps_pos c ds x (by rw [hl]; exact List.mem_cons_self _ _)
    simp only [List.foldl_cons, listMax, Option.getD_some]
    rw [max_eq_right hx.le]

lemma analyze_amperage_matches_eq (ds : List Sheet) (c : Cond) :
    (analyze_amperage ds c).tandem_analysis = (ds.map (sheetAmpMatchesSpec c)).flatten := by
  simp only [analyze_amperage, amp_fold_spec, ampInit]
  simp

lemma analyze_amperage_unit_count_eq (ds : List Sheet) (c : Cond) :
    (analyze_amperage ds c).unit_count = (ds.map (ampUnitInc c)).sum := by
  simp only [analyze_amperage, amp_fold_spec, ampInit]
  simp

lemma pct_bound (p1 p2 : ℚ) (h1 : 0 < p1) (h2 : 0 < p2) :
    0 ≤ |p1 - p2| / max p1 p2 * 100 ∧ |p1 - p2| / max p1 p2 * 100 < 100 := by
  have hm : 0 < max p1 p2 := lt_max_of_lt_left h1
  have habs : |p1 - p2| < max p1 p2 := by
    rcases le_total p1 p2 with h | h
    · rw [abs_of_nonpos (by linarith), max_eq_right h]
      linarith
    · rw [abs_of_nonneg (by linarith), max_eq_left h]
      linarith
  constructor
  · have := div_nonneg (abs_nonneg (p1 - p2)) hm.le
    linarith
  · have hdiv : |p1 - p2| / max p1 p2 < 1 := (div_lt_one hm).mpr habs
    linarith

/-- Claim C4: the tandem amperage match entries of a condition are exactly
one entry per both-positive row of each Tandem sheet with both columns
present (the iff of emission), and every emitted entry carries
`percentage_difference = |p1 - p2| / max p1 p2 * 100`, a value in [0, 100). -/
theorem amp_match_iff_both_positive (ds : List Sheet) (c : Cond) :
    (analyze_amperage ds c).tandem_analysis = (ds.map (sheetAmpMatchesSpec c)).flatten ∧
    ∀ e ∈ (analyze_amperage ds c).tandem_analysis,
      0 < e.p1_amp ∧ 0 < e.p2_amp ∧
      e.difference = |e.p1_amp - e.p2_amp| ∧
      e.percentage_diff = |e.p1_amp - e.p2_amp| / max e.p1_amp e.p2_amp * 100 ∧
      0 ≤ e.percentage_diff ∧ e.percentage_diff < 100 := by
  refine ⟨analyze_amperage_matches_eq ds c, ?_⟩
  intro e he
  rw [analyze_amperage_matches_eq] at he
  rcases List.mem_flatten.mp he with ⟨l, hl, hel⟩
  rcases List.mem_map.mp hl with ⟨s, _, rfl⟩
  cases s with
  | mk d pt =>
    cases pt with
    | Single =>
      simp only [sheetAmpMatchesSpec] at hel
      exact absurd hel (List.not_mem_nil _)
    | Tandem =>
      simp only [sheetAmpMatchesSpec] at hel
      by_cases hcol : p1ColName c ∈ d.columns ∧ p2ColName c ∈ d.columns
      · rw [if_pos hcol] at hel
        rcases List.mem_filterMap.mp hel with ⟨ir, _, hir⟩
        simp only [ampRowMatch] at hir
        by_cases hpos : 0 < ir.2.val (p1ColName c) ∧ 0 < ir.2.val (p2ColName c)
        · rw [if_pos hpos] at hir
          injection hir with h
          subst h
          exact ⟨hpos.1, hpos.2, rfl, rfl,
            (pct_bound _ _ hpos.1 hpos.2).1, (pct_bound _ _ hpos.1 hpos.2).2⟩
        · rw [if_neg hpos] at hir
          exact absurd hir (by simp)
      · rw [if_neg hcol] at hel
        exact absurd hel (List.not_mem_nil _)

/-- Row of the concrete Tandem witness sheet: amperage readings 10 and 12 at
0 bar. -/
def ampWitnessRow : Row :=
  { srNo := some "U1", cells := [("0 Bar Amp P1", 10), ("0 Bar Amp P2", 12)] }

/-- Data of the concrete Tandem witness sheet. -/
def ampWitnessData : SheetData :=
  { label := "TandemPump", columns := ["0 Bar Amp P1", "0 Bar Amp P2"], rows := [ampWitnessRow] }

/-- Concrete Tandem sheet used by the witnesses: one unit with amperage
readings 10 and 12 at 0 bar. -/
def ampWitnessSheet : Sheet :=
  { data := ampWitnessData, ptype := PumpType.Tandem }

/-- The match entry the analyzer emits for `ampWitnessSheet` at 0 bar. -/
def ampWitnessEntry : TandemAmpMatch :=
  { unit_id := "U1", p1_amp := 10, p2_amp := 12, difference := 2,
    percentage_diff := 50 / 3 }

/-- Witness for claim C4 at a concrete emitted entry. -/
theorem amp_match_iff_both_positive_witness :
    0 < ampWitnessEntry.p1_amp ∧ 0 < ampWitnessEntry.p2_amp ∧
    ampWitnessEntry.difference = |ampWitnessEntry.p1_amp - ampWitnessEntry.p2_amp| ∧
    ampWitnessEntry.percentage_diff =
      |ampWitnessEntry.p1_amp - ampWitnessEntry.p2_amp| /
        max ampWitnessEntry.p1_amp ampWitnessEntry.p2_amp * 100 ∧
    0 ≤ ampWitnessEntry.percentage_diff ∧ ampWitnessEntry.percentage_diff < 100 :=
  (amp_match_iff_both_positive [ampWitnessSheet] Cond.bar0).2 ampWitnessEntry (by
    have hm : (analyze_amperage [ampWitnessSheet] Cond.bar0).tandem_analysis
        = [{ unit_id := "U1", p1_amp := 10, p2_amp := 12,
             difference := |(10 : ℚ) - 12|,
             percentage_diff := |(10 : ℚ) - 12| / max (10 : ℚ) 12 * 100 }] := rfl
    have he : ampWitnessEntry
        = { unit_id := "U1", p1_amp := 10, p2_amp := 12,
            difference := |(10 : ℚ) - 12|,
            percentage_diff := |(10 : ℚ) - 12| / max (10 : ℚ) 12 * 100 } := by
      rw [max_eq_right (by norm_num : (10 : ℚ) ≤ 12)]
      simp only [ampWitnessEntry, TandemAmpMatch.mk.injEq]
      norm_num
    rw [hm, he]
    exact List.mem_singleton_self _)

/-- Claim C5: min and max of a condition are the minimum and maximum of the
strictly-positive readings selected across the whole run (so the infinity
sentinel is replaced by 0 once, after all sheets are folded), and when no
positive reading exists both come out 0. -/
theorem amp_minmax_positive_fold (ds : List Sheet) (c : Cond) :
    (∀ v ∈ collectedAmpsSpec c ds, 0 < v) ∧
    (analyze_amperage ds c).min = (listMin (collectedAmpsSpec c ds)).getD 0 ∧
    (analyze_amperage ds c).max = (listMax (collectedAmpsSpec c ds)).getD 0 ∧
    (collectedAmpsSpec c ds = [] →
      (analyze_amperage ds c).min = 0 ∧ (analyze_amperage ds c).max = 0) := by
  refine ⟨collectedAmps_pos c ds, analyze_amperage_min_eq ds c,
    analyze_amperage_max_eq ds c, ?_⟩
  intro h
  rw [analyze_amperage_min_eq, analyze_amperage_max_eq, h]
  exact ⟨rfl, rfl⟩

/-- Data of a concrete Single sheet with one positive 0-bar reading. -/
def ampPosData : SheetData :=
  { label := "SinglePump", columns := ["0 Bar Amp P1"],
    rows := [{ srNo := none, cells := [("0 Bar Amp P1", 7)] }] }

/-- Concrete Single sheet with one positive 0-bar reading, for the C5
witness. -/
def ampPosSheet : Sheet :=
  { data := ampPosData, ptype := PumpType.Single }

/-- Witness for claim C5: positivity of a selected reading on a concrete run,
and min = max = 0 on a run with no positive reading. -/
theorem amp_minmax_positive_fold_witness :
    (0 : ℚ) < 7 ∧
    (analyze_amperage [] Cond.bar0).min = 0 ∧ (analyze_amperage [] Cond.bar0).max = 0 :=
  ⟨(amp_minmax_positive_fold [ampPosSheet] Cond.bar0).1 7 (by decide),
   ((amp_minmax_positive_fold [] Cond.bar0).2.2.2 rfl).1,
   ((amp_minmax_positive_fold [] Cond.bar0).2.2.2 rfl).2⟩

/-- One tandem efficiency match entry as appended to
`tandem_matching_analysis` in `analyze_efficiency_distribution`. -/
structure TandemEffMatch where
  unit_id : String
  p1_eff : ℚ
  p2_eff : ℚ
  difference : ℚ
  average_eff : ℚ
deriving DecidableEq, Repr

/-- The three efficiency band counters of `efficiency_ranges`. -/
structure EffRanges where
  r90_to_92 : ℕ
  r92_to_94 : ℕ
  r94_plus : ℕ
deriving DecidableEq, Repr

/-- One pass of the band categorisation chain
`if 90 <= eff < 92 / elif 92 <= eff < 94 / elif eff >= 94`. -/
def bucket (acc : EffRanges) (eff : ℚ) : EffRanges :=
  if 90 ≤ eff ∧ eff < 92 then { acc with r90_to_92 := acc.r90_to_92 + 1 }
  else if 92 ≤ eff ∧ eff < 94 then { acc with r92_to_94 := acc.r92_to_94 + 1 }
  else if 94 ≤ eff then { acc with r94_plus := acc.r94_plus + 1 }
  else acc

/-- Accumulator of `analyze_efficiency_distribution`: the band counters, the
running `total_individual_pumps`, and `tandem_matching_analysis`. -/
structure EffAcc where
  ranges : EffRanges
  total : ℕ
  tandem_matching_analysis : List TandemEffMatch
deriving DecidableEq, Repr

/-- Initial efficiency accumulator: all counters 0, no matches. -/
def effInit : EffAcc :=
  { ranges := { r90_to_92 := 0, r92_to_94 := 0, r94_plus := 0 }, total := 0, tandem_matching_analysis := [] }

/-- Body of the tandem row loop of `analyze_efficiency_distribution`: when
both efficiencies (read with the `row.get(_, 0)` default) are strictly
positive, append the match entry, bucket both values, and add 2 to the
individual-pump total. -/
def effTandemRowStep (s : SheetData) (acc : EffAcc) (ir : ℕ × Row) : EffAcc :=
  let p1_eff := tGet s ir.2 "Eff%P1"
  let p2_eff := tGet s ir.2 "Eff%P2"
  if 0 < p1_eff ∧ 0 < p2_eff then
    { ranges := bucket (bucket acc.ranges p1_eff) p2_eff,
      total := acc.total + 2,
      tandem_matching_analysis := acc.tandem_matching_analysis ++
        [{ unit_id := unitId ir.2 ir.1, p1_eff := p1_eff, p2_eff := p2_eff,
           difference := |p1_eff - p2_eff|, average_eff := (p1_eff + p2_eff) / 2 }] }
  else acc

/-- One iteration of the sheet loop of `analyze_efficiency_distribution`:
Single sheets bucket their positive `Eff%P1` values (when the column exists);
everything else runs the tandem row loop. -/
def effSheetStep (acc : EffAcc) (s : Sheet) : EffAcc :=
  match s.ptype with
  | PumpType.Single =>
    if "Eff%P1" ∈ s.data.columns then
      let valid := (s.data.rows.map (fun r => r.val "Eff%P1")).filter (fun v => 0 < v)
      { ranges := valid.foldl bucket acc.ranges,
        total := acc.total + valid.length,
        tandem_matching_analysis := acc.tandem_matching_analysis }
    else acc
  | PumpType.Tandem => s.data.rows.enum.foldl (effTandemRowStep s.data) acc

/-- Embedding of `analyze_efficiency_distribution(pump_data)` from `app.py`. -/
def analyze_efficiency_distribution (ds : List Sheet) : EffAcc :=
  ds.foldl effSheetStep effInit

/-- Efficiency readings one tandem row contributes: both values when both are
strictly positive, nothing otherwise. -/
def effRowVals (s : SheetData) (r : Row) : List ℚ :=
  if 0 < tGet s r "Eff%P1" ∧ 0 < tGet s r "Eff%P2" then
    [tGet s r "Eff%P1", tGet s r "Eff%P2"]
  else []

/-- Spec-side description of the efficiency readings one sheet counts
(section 4.3 of the spec): positive `Eff%P1` values of a Single sheet with
that column present; both values of the both-positive rows of a Tandem
sheet. -/
def sheetCountedSpec (s : Sheet) : List ℚ :=
  match s.ptype with
  | PumpType.Single =>
    if "Eff%P1" ∈ s.data.columns then
      (s.data.rows.map (fun r => r.val "Eff%P1")).filter (fun v => 0 < v)
    else []
  | PumpType.Tandem => (s.data.rows.map (effRowVals s.data)).flatten

/-- All counted efficiency readings of a run, in fold order. -/
def countedReadingsSpec (ds : List Sheet) : List ℚ := (ds.map sheetCountedSpec).flatten

/-- The efficiency match entry the tandem row loop emits for one indexed row,
when it emits one. -/
def effRowMatch (s : SheetData) (ir : ℕ × Row) : Option TandemEffMatch :=
  if 0 < tGet s ir.2 "Eff%P1" ∧ 0 < tGet s ir.2 "Eff%P2" then
    some { unit_id := unitId ir.2 ir.1,
           p1_eff := tGet s ir.2 "Eff%P1", p2_eff := tGet s ir.2 "Eff%P2",
           difference := |tGet s ir.2 "Eff%P1" - tGet s ir.2 "Eff%P2"|,
           average_eff := (tGet s ir.2 "Eff%P1" + tGet s ir.2 "Eff%P2") / 2 }
  else none

/-- Spec-side description of the tandem efficiency match entries one sheet
emits: one per both-positive row of a Tandem sheet. -/
def sheetEffMatchesSpec (s : Sheet) : List TandemEffMatch :=
  match s.ptype with
  | PumpType.Single => []
  | PumpType.Tandem => s.data.rows.enum.filterMap (effRowMatch s.data)

lemma effRowLoop_spec (s : SheetData) (l : List (ℕ × Row)) (acc : EffAcc) :
    l.foldl (effTandemRowStep s) acc =
    { ranges := ((l.map (fun ir => effRowVals s ir.2)).flatten).foldl bucket acc.ranges,
      total := acc.total + ((l.map (fun ir => effRowVals s ir.2)).flatten).length,
      tandem_matching_analysis := acc.tandem_matching_analysis ++ l.filterMap (effRowMatch s) } := by
  induction l generalizing acc with
  | nil => simp
  | cons ir l ih =>
    simp only [List.foldl_cons, List.map_cons, List.flatten_cons, List.filterMap_cons]
    rw [ih]
    by_cases h : 0 < tGet s ir.2 "Eff%P1" ∧ 0 < tGet s ir.2 "Eff%P2"
    · simp only [effTandemRowStep, effRowVals, effRowMatch, h, if_pos]
      simp [List.append_assoc, Nat.add_assoc]
      omega
    · simp only [effTandemRowStep, effRowVals, effRowMatch, h, if_neg, not_false_iff]
      simp

lemma effSheetStep_spec (acc : EffAcc) (s : Sheet) :
    effSheetStep acc s =
    { ranges := (sheetCountedSpec s).foldl bucket acc.ranges,
      total := acc.total + (sheetCountedSpec s).length,
      tandem_matching_analysis := acc.tandem_matching_analysis ++ sheetEffMatchesSpec s } := by
  cases s with
  | mk d pt =>
    cases pt with
    | Single =>
      simp only [effSheetStep, sheetCountedSpec, sheetEffMatchesSpec]
      by_cases hcol : "Eff%P1" ∈ d.columns
      · simp [hcol]
      · simp [hcol]
    | Tandem =>
      simp only [effSheetStep, sheetCountedSpec, sheetEffMatchesSpec]
      have henum : d.rows.enum.map (fun ir => effRowVals d ir.2) = d.rows.map (effRowVals d) := by
        have h2 : (d.rows.enum.map Prod.snd).map (effRowVals d) = d.rows.map (effRowVals d) := by
          rw [List.enum_map_snd]
        rw [← h2, List.map_map]
        rfl
      rw [effRowLoop_spec, henum]

lemma eff_fold_spec (ds : List Sheet) (acc : EffAcc) :
    ds.foldl effSheetStep acc =
    { ranges := (countedReadingsSpec ds).foldl bucket acc.ranges,
      total := acc.total + (countedReadingsSpec ds).length,
      tandem_matching_analysis := acc.tandem_matching_analysis ++ (ds.map sheetEffMatchesSpec).flatten } := by
  induction ds generalizing acc with
  | nil => simp [countedReadingsSpec]
  | cons s ds ih =>
    simp only [List.foldl_cons, List.map_cons, List.flatten_cons]
    rw [effSheetStep_spec, ih]
    simp only [countedReadingsSpec, List.map_cons, List.flatten_cons, List.foldl_append,
      List.length_append]
    simp [List.append_assoc, Nat.add_assoc]

lemma analyze_eff_total_eq (ds : List Sheet) :
    (analyze_efficiency_distribution ds).total = (countedReadingsSpec ds).length := by
  simp only [analyze_efficiency_distribution, eff_fold_spec, effInit]
  omega

lemma analyze_eff_ranges_eq (ds : List Sheet) :
    (analyze_efficiency_distribution ds).ranges =
      (countedReadingsSpec ds).foldl bucket effInit.ranges := by
  simp only [analyze_efficiency_distribution, eff_fold_spec, effInit]

lemma analyze_eff_matches_eq (ds : List Sheet) :
    (analyze_efficiency_distribution ds).tandem_matching_analysis = (ds.map sheetEffMatchesSpec).flatten := by
  simp only [analyze_efficiency_distribution, eff_fold_spec, effInit]
  simp

/-- Sum of the three band counters. -/
def bandSum (r : EffRanges) : ℕ := r.r90_to_92 + r.r92_to_94 + r.r94_plus

lemma bandSum_bucket (r : EffRanges) (v : ℚ) :
    bandSum (bucket r v) = bandSum r + (if 90 ≤ v then 1 else 0) := by
  unfold bucket bandSum
  by_cases h1 : 90 ≤ v ∧ v < 92
  · rw [if_pos h1, if_pos h1.1]
    dsimp only
    omega
  · rw [if_neg h1]
    by_cases h2 : 92 ≤ v ∧ v < 94
    · rw [if_pos h2, if_pos (by linarith [h2.1] : (90 : ℚ) ≤ v)]
      dsimp only
      omega
    · rw [if_neg h2]
      by_cases h3 : 94 ≤ v
      · rw [if_pos h3, if_pos (by linarith : (90 : ℚ) ≤ v)]
        dsimp only
        omega
      · have h90 : ¬ (90 ≤ v) := by
          intro h90
          have h92 : (92 : ℚ) ≤ v := by
            by_contra hcon
            exact h1 ⟨h90, by linarith⟩
          have h94 : (94 : ℚ) ≤ v := by
            by_contra hcon
            exact h2 ⟨h92, by linarith⟩
          exact h3 h94
        rw [if_neg h3, if_neg h90]
        omega

lemma bandSum_foldl (l : List ℚ) (r : EffRanges) :
    bandSum (l.foldl bucket r) = bandSum r + (l.filter (fun v => 90 ≤ v)).length := by
  induction l generalizing r with
  | nil => simp
  | cons x xs ih =>
    simp only [List.foldl_cons, List.filter_cons, decide_eq_true_eq]
    rw [ih, bandSum_bucket]
    by_cases h : (90 : ℚ) ≤ x
    · rw [if_pos h, if_pos h, List.length_cons]
      omega
    · rw [if_neg h, if_neg h]
      omega

lemma length_filter_ge_add_lt (l : List ℚ) :
    (l.filter (fun v => 90 ≤ v)).length + (l.filter (fun v => v < 90)).length = l.length := by
  induction l with
  | nil => rfl
  | cons x xs ih =>
    simp only [List.filter_cons, decide_eq_true_eq, List.length_cons]
    by_cases h : (90 : ℚ) ≤ x
    · rw [if_pos h, if_neg (not_lt.mpr h)]
      simp only [List.length_cons]
      omega
    · rw [if_neg h, if_pos (lt_of_not_ge h)]
      simp only [List.length_cons]
      omega

lemma countedReadings_pos (ds : List Sheet) :
    ∀ v ∈ countedReadingsSpec ds, 0 < v := by
  intro v hv
  rcases List.mem_flatten.mp hv with ⟨l, hl, hvl⟩
  rcases List.mem_map.mp hl with ⟨s, _, rfl⟩
  cases s with
  | mk d pt =>
    cases pt with
    | Single =>
      simp only [sheetCountedSpec] at hvl
      by_cases hcol : "Eff%P1" ∈ d.columns
      · rw [if_pos hcol] at hvl
        exact of_decide_eq_true (List.mem_filter.mp hvl).2
      · rw [if_neg hcol] at hvl
        exact absurd hvl (List.not_mem_nil _)
    | Tandem =>
      simp only [sheetCountedSpec] at hvl
      rcases List.mem_flatten.mp hvl with ⟨l2, hl2, hvl2⟩
      rcases List.mem_map.mp hl2 with ⟨r, _, rfl⟩
      simp only [effRowVals] at hvl2
      by_cases hpos : 0 < tGet d r "Eff%P1" ∧ 0 < tGet d r "Eff%P2"
      · rw [if_pos hpos] at hvl2
        simp only [List.mem_cons, List.not_mem_nil, or_false] at hvl2
        rcases hvl2 with h | h
        · rw [h]; exact hpos.1
        · rw [h]; exact hpos.2
      · rw [if_neg hpos] at hvl2
        exact absurd hvl2 (List.not_mem_nil _)

lemma eff_total_split (ds : List Sheet) :
    bandSum (analyze_efficiency_distribution ds).ranges ≤
      (analyze_efficiency_distribution ds).total ∧
    (analyze_efficiency_distribution ds).total =
      bandSum (analyze_efficiency_distribution ds).ranges +
        ((countedReadingsSpec ds).filter (fun v => v < 90)).length := by
  have htot := analyze_eff_total_eq ds
  have hrng := analyze_eff_ranges_eq ds
  have hsum : bandSum (analyze_efficiency_distribution ds).ranges =
      ((countedReadingsSpec ds).filter (fun v => 90 ≤ v)).length := by
    rw [hrng, bandSum_foldl]
    simp [bandSum, effInit]
  refine ⟨?_, ?_⟩
  · rw [hsum, htot]
    have := length_filter_ge_add_lt (countedReadingsSpec ds)
    omega
  · rw [hsum, htot]
    have := length_filter_ge_add_lt (countedReadingsSpec ds)
    omega

/-- Claim C9: the individual-reading total is the band sum plus the number of
counted strictly-positive readings below 90 (readings from Single sheets or
both-positive Tandem rows that fall in no band), so total ≥ band sum. -/
theorem eff_total_decomposition (ds : List Sheet) :
    (∀ v ∈ countedReadingsSpec ds, 0 < v) ∧
    bandSum (analyze_efficiency_distribution ds).ranges ≤
      (analyze_efficiency_distribution ds).total ∧
    (analyze_efficiency_distribution ds).total =
      bandSum (analyze_efficiency_distribution ds).ranges +
        ((countedReadingsSpec ds).filter (fun v => v < 90)).length :=
  ⟨countedReadings_pos ds, (eff_total_split ds).1, (eff_total_split ds).2⟩

/-- Concrete Single sheet with one reading of 91, for the efficiency
witnesses. -/
def goodEffData : SheetData :=
  { label := "SinglePump", columns := ["Eff%P1"],
    rows := [{ srNo := none, cells := [("Eff%P1", 91)] }] }

/-- Concrete Single sheet around `goodEffData`. -/
def goodEffSheet : Sheet := { data := goodEffData, ptype := PumpType.Single }

/-- Witness for claim C9 at a concrete run with one counted reading. -/
theorem eff_total_decomposition_witness :
    (0 : ℚ) < 91 ∧
    (analyze_efficiency_distribution [goodEffSheet]).total =
      bandSum (analyze_efficiency_distribution [goodEffSheet]).ranges +
        ((countedReadingsSpec [goodEffSheet]).filter (fun v => v < 90)).length :=
  ⟨(eff_total_decomposition [goodEffSheet]).1 91 (by decide),
   (eff_total_decomposition [goodEffSheet]).2.2⟩

/-- Claim C1 as amended: the individual-reading total is at least the band
sum, with equality whenever every counted reading is at least 90; readings
in (0, 90) are counted in the total but fall in no band, so the unqualified
equality of the claim fails. -/
theorem eff_total_ge_band_sum (ds : List Sheet) :
    bandSum (analyze_efficiency_distribution ds).ranges ≤
      (analyze_efficiency_distribution ds).total ∧
    ((∀ v ∈ countedReadingsSpec ds, 90 ≤ v) →
      (analyze_efficiency_distribution ds).total =
        bandSum (analyze_efficiency_distribution ds).ranges) := by
  refine ⟨(eff_total_split ds).1, ?_⟩
  intro hall
  rw [(eff_total_split ds).2]
  have hempty : (countedReadingsSpec ds).filter (fun v => v < 90) = [] := by
    rw [List.filter_eq_nil_iff]
    intro v hv
    simp only [decide_eq_true_eq, not_lt]
    exact hall v hv
  rw [hempty]
  rfl

/-- Witness for the amended claim C1 at a concrete run where every counted
reading is at least 90. -/
theorem eff_total_ge_band_sum_witness :
    (∀ v ∈ countedReadingsSpec [goodEffSheet], (90 : ℚ) ≤ v) ∧
    (analyze_efficiency_distribution [goodEffSheet]).total =
      bandSum (analyze_efficiency_distribution [goodEffSheet]).ranges :=
  ⟨by decide, (eff_total_ge_band_sum [goodEffSheet]).2 (by decide)⟩

/-- A pipeline input refuting claim C1 as stated: one Single table whose only
positive reading is 85, counted in the total but in no band. -/
def lowEffTable : PumpTable :=
  { label := "SinglePump", columns := ["Eff%P1"],
    rows := [{ srNo := none, cells := [("Eff%P1", 85)] }] }

/-- Claim C1, counterexample: on `lowEffTable` the analyzed total is 1 while
the three band counts sum to 0, refuting the claimed equality. -/
theorem eff_total_ne_band_sum_cex :
    ¬ ((analyze_efficiency_distribution (mkPumpData [lowEffTable])).total =
        (analyze_efficiency_distribution (mkPumpData [lowEffTable])).ranges.r90_to_92 +
        (analyze_efficiency_distribution (mkPumpData [lowEffTable])).ranges.r92_to_94 +
        (analyze_efficiency_distribution (mkPumpData [lowEffTable])).ranges.r94_plus) := by
  decide

lemma snd_mem_of_mem_enum {α : Type} {l : List α} {ir : ℕ × α} (h : ir ∈ l.enum) :
    ir.2 ∈ l := by
  have he := List.enum_map_snd l
  rw [← he]
  exact List.mem_map_of_mem Prod.snd h

lemma flatten_nil_of_all_nil {α : Type} (L : List (List α)) (h : ∀ l ∈ L, l = []) :
    L.flatten = [] := by
  induction L with
  | nil => rfl
  | cons a L ih =>
    rw [List.flatten_cons, h a (List.mem_cons_self _ _),
      ih (fun l hl => h l (List.mem_cons_of_mem _ hl))]
    rfl

lemma filterMap_nil_of_all_none {α β : Type} (f : α → Option β) (l : List α)
    (h : ∀ a ∈ l, f a = none) : l.filterMap f = [] := by
  induction l with
  | nil => rfl
  | cons a l ih =>
    rw [List.filterMap_cons, h a (List.mem_cons_self _ _),
      ih (fun x hx => h x (List.mem_cons_of_mem _ hx))]

/-- Claim C6: a Tandem sheet in which no row has both efficiencies strictly
positive contributes nothing at all to the efficiency analysis — removing it
from the run leaves band counts, the individual total and the match list
unchanged. -/
theorem eff_one_sided_tandem_noop (pre post : List Sheet) (s : Sheet)
    (hT : s.ptype = PumpType.Tandem)
    (h : ∀ r ∈ s.data.rows, ¬ (0 < tGet s.data r "Eff%P1" ∧ 0 < tGet s.data r "Eff%P2")) :
    analyze_efficiency_distribution (pre ++ s :: post) =
      analyze_efficiency_distribution (pre ++ post) := by
  have hvals : sheetCountedSpec s = [] := by
    unfold sheetCountedSpec
    rw [hT]
    refine flatten_nil_of_all_nil _ ?_
    intro l hl
    rcases List.mem_map.mp hl with ⟨r, hr, rfl⟩
    unfold effRowVals
    rw [if_neg (h r hr)]
  have hmatches : sheetEffMatchesSpec s = [] := by
    unfold sheetEffMatchesSpec
    rw [hT]
    refine filterMap_nil_of_all_none _ _ ?_
    intro ir hir
    unfold effRowMatch
    rw [if_neg (h ir.2 (snd_mem_of_mem_enum hir))]
  have hstep : ∀ acc, effSheetStep acc s = acc := by
    intro acc
    rw [effSheetStep_spec, hvals, hmatches]
    simp
  unfold analyze_efficiency_distribution
  rw [List.foldl_append, List.foldl_append, List.foldl_cons, hstep]

/-- Row of the one-sided Tandem witness sheet: only `Eff%P1` populated. -/
def oneSidedRow : Row := { srNo := none, cells := [("Eff%P1", 95)] }

/-- Data of the one-sided Tandem witness sheet. -/
def oneSidedData : SheetData :=
  { label := "TandemPump", columns := ["Eff%P1", "Eff%P2"], rows := [oneSidedRow] }

/-- One-sided Tandem sheet for the C6 witness. -/
def oneSidedSheet : Sheet := { data := oneSidedData, ptype := PumpType.Tandem }

/-- Witness for claim C6 at a concrete one-sided Tandem sheet. -/
theorem eff_one_sided_tandem_noop_witness :
    analyze_efficiency_distribution ([] ++ oneSidedSheet :: []) =
      analyze_efficiency_distribution ([] ++ []) :=
  eff_one_sided_tandem_noop [] [] oneSidedSheet rfl (by decide)

lemma all_nil_of_flatten_nil {α : Type} {L : List (List α)} (h : L.flatten = []) :
    ∀ l ∈ L, l = [] := by
  induction L with
  | nil =>
    intro l hl
    exact absurd hl (List.not_mem_nil _)
  | cons a L ih =>
    intro l hl
    rw [List.flatten_cons] at h
    rcases List.append_eq_nil.mp h with ⟨ha, hL⟩
    rcases List.mem_cons.mp hl with hla | hl2
    · rw [hla]; exact ha
    · exact ih hL l hl2

lemma sheetAmpMatches_nil (c : Cond) (s : Sheet) (h : sheetAmpValsSpec c s = []) :
    sheetAmpMatchesSpec c s = [] := by
  cases s with
  | mk d pt =>
    cases pt with
    | Single => rfl
    | Tandem =>
      simp only [sheetAmpValsSpec] at h
      simp only [sheetAmpMatchesSpec]
      by_cases hcol : p1ColName c ∈ d.columns ∧ p2ColName c ∈ d.columns
      · rw [if_pos hcol] at h ⊢
        refine filterMap_nil_of_all_none _ _ ?_
        intro ir hir
        have hr : ir.2 ∈ d.rows := snd_mem_of_mem_enum hir
        have hrv : ampRowVals c ir.2 = [] :=
          all_nil_of_flatten_nil h _ (List.mem_map_of_mem _ hr)
        unfold ampRowVals at hrv
        unfold ampRowMatch
        by_cases hpos : 0 < ir.2.val (p1ColName c) ∧ 0 < ir.2.val (p2ColName c)
        · rw [if_pos hpos] at hrv
          exact absurd hrv (by simp)
        · rw [if_neg hpos]
      · rw [if_neg hcol]

lemma analyze_amp_matches_nil (ds : List Sheet) (c : Cond)
    (h : collectedAmpsSpec c ds = []) :
    (analyze_amperage ds c).tandem_analysis = [] := by
  rw [analyze_amperage_matches_eq]
  refine flatten_nil_of_all_nil _ ?_
  intro l hl
  rcases List.mem_map.mp hl with ⟨s, hs, rfl⟩
  exact sheetAmpMatches_nil c s (all_nil_of_flatten_nil h _ (List.mem_map_of_mem _ hs))

/-- Embedding of Python fixed-point float formatting (`f"{x:.2f}"`) on exact
rationals: round half to even at the requested number of decimals, then print
with zero-padded fractional digits. -/
def natPadLeft (s : String) (d : ℕ) : String :=
  String.mk (List.replicate (d - s.length) '0') ++ s

/-- Round a rational to the nearest integer, ties to even, as IEEE floats and
Python string formatting do. -/
def roundHalfEven (q : ℚ) : ℤ :=
  let f := ⌊q⌋
  if q - (f : ℚ) < 1 / 2 then f
  else if (1 : ℚ) / 2 < q - (f : ℚ) then f + 1
  else if f % 2 = 0 then f else f + 1

/-- Python `f"{q:.d f}"`: the rational printed with `d` decimal places. -/
def fmtFixed (q : ℚ) (d : ℕ) : String :=
  let scale : ℕ := 10 ^ d
  let n : ℤ := roundHalfEven (q * (scale : ℚ))
  let sign := if n < 0 then "-" else ""
  let m : ℕ := n.natAbs
  if d = 0 then sign ++ toString (m / scale)
  else sign ++ toString (m / scale) ++ "." ++ natPadLeft (toString (m % scale)) d

/-- Python `max(l, key=f)` for a nonempty list `cur :: rest`: the first
element attaining the maximal key. -/
def maxByKey {α : Type} (f : α → ℚ) : α → List α → α
  | cur, [] => cur
  | cur, x :: xs => if f cur < f x then maxByKey f x xs else maxByKey f cur xs

/-- The tandem matching sub-block of one amperage condition, emitted only for
a nonempty `tandem_analysis` list (the `w :: ws` argument). -/
def tandemAmpLines (w : TandemAmpMatch) (ws : List TandemAmpMatch) : List String :=
  ["  Tandem pump matching analysis:",
   "    - Total tandem units: " ++ toString (w :: ws).length,
   "    - Units with >10% P1/P2 difference: " ++
     toString ((w :: ws).filter (fun u => 10 < u.percentage_diff)).length] ++
  (match (w :: ws).filter (fun u => 10 < u.percentage_diff) with
   | [] => ["    - All tandem units within 10% tolerance"]
   | m :: ms =>
     ["    - Worst mismatch: " ++
       fmtFixed (maxByKey (fun u => u.percentage_diff) m ms).percentage_diff 1 ++
       "% (Unit " ++ (maxByKey (fun u => u.percentage_diff) m ms).unit_id ++ ")"])

/-- One condition's block of the amperage section of
`generate_report_content`: the loop body over `['0_bar', '200_bar']`. -/
def condBlock (stat : AmpStat) (c : Cond) : List String :=
  [condName c ++ " Conditions:"] ++
  (if 0 < stat.unit_count then
    (if 0 < stat.max then
      ["  Minimum amperage: " ++ fmtFixed stat.min 2 ++ " A",
       "  Maximum amperage: " ++ fmtFixed stat.max 2 ++ " A"]
     else []) ++
    (match stat.tandem_analysis with
     | [] => []
     | w :: ws => tandemAmpLines w ws) ++
    ["  Total units analyzed: " ++ toString stat.unit_count]
   else ["  No data available"]) ++
  [""]

/-- The per-sheet configuration line of the report. -/
def configLine (s : Sheet) : String :=
  match s.ptype with
  | PumpType.Tandem =>
    s.data.label ++ ": " ++ toString s.data.rows.length ++ " Tandem units (each with 2 pumps)"
  | PumpType.Single =>
    s.data.label ++ ": " ++ toString s.data.rows.length ++ " Single pump units"

/-- The `total_units` accumulator of the configuration section: the sum of
every sheet's record count, whatever its configuration. -/
def totalUnits (ds : List Sheet) : ℕ := (ds.map (fun s => s.data.rows.length)).sum

/-- The `has_tandem` flag of the configuration section. -/
def hasTandem (ds : List Sheet) : Bool := ds.any (fun s => decide (s.ptype = PumpType.Tandem))

/-- The TANDEM PUMP MATCHING section, emitted only when the match list is
nonempty and some sheet is Tandem (`if tandem_matching_analysis and
has_tandem`). -/
def effMatchLines (tma : List TandemEffMatch) (ht : Bool) : List String :=
  match tma, ht with
  | [], _ => []
  | _ :: _, false => []
  | w :: ws, true =>
    ["", "TANDEM PUMP MATCHING (P1 vs P2):", String.mk (List.replicate 33 '-'),
     "Total tandem units analyzed: " ++ toString (w :: ws).length,
     "Average efficiency difference: " ++
       fmtFixed (((w :: ws).map (fun u => u.difference)).sum / ((w :: ws).length : ℚ)) 2 ++ "%",
     "Units with >3% efficiency difference: " ++
       toString ((w :: ws).filter (fun u => 3 < u.difference)).length] ++
    (match (w :: ws).filter (fun u => 3 < u.difference) with
     | [] => ["All tandem units within 3% efficiency tolerance"]
     | m :: ms =>
       ["Worst efficiency mismatch: " ++
         fmtFixed (maxByKey (fun u => u.difference) m ms).difference 2 ++
         "% (Unit " ++ (maxByKey (fun u => u.difference) m ms).unit_id ++ ")"])

/-- Embedding of `generate_report_content` from `app.py` as the list of
report lines it appends; the returned string is their newline join. -/
def report_lines (pump_data : List Sheet) (total_pumps : ℕ) (amp : Cond → AmpStat)
    (efficiency_ranges : EffRanges) (total_efficiency_readings : ℕ)
    (tandem_matching_analysis : List TandemEffMatch) : List String :=
  ["PUMP PERFORMANCE TEST REPORT", String.mk (List.replicate 50 '='), "",
   "PUMP CONFIGURATION ANALYSIS:", String.mk (List.replicate 28 '-')] ++
  pump_data.map configLine ++
  ["Total units tested: " ++ toString (totalUnits pump_data),
   "Total individual pumps: " ++ toString total_efficiency_readings, "",
   "AMPERAGE ANALYSIS:", String.mk (List.replicate 18 '-')] ++
  condBlock (amp Cond.bar0) Cond.bar0 ++
  condBlock (amp Cond.bar200) Cond.bar200 ++
  ["EFFICIENCY ANALYSIS:", String.mk (List.replicate 20 '-'),
   "Individual pump efficiencies analyzed: " ++ toString total_efficiency_readings, "",
   "90% - 92%:     " ++ toString efficiency_ranges.r90_to_92 ++ " pumps",
   "92% - 94%:     " ++ toString efficiency_ranges.r92_to_94 ++ " pumps",
   "94% and above: " ++ toString efficiency_ranges.r94_plus ++ " pumps"] ++
  effMatchLines tandem_matching_analysis (hasTandem pump_data)

/-- The report text: the joined lines, as the code returns. -/
def generate_report_content (pump_data : List Sheet) (total_pumps : ℕ)
    (amp : Cond → AmpStat) (efficiency_ranges : EffRanges)
    (total_efficiency_readings : ℕ)
    (tandem_matching_analysis : List TandemEffMatch) : String :=
  String.intercalate "\n"
    (report_lines pump_data total_pumps amp efficiency_ranges
      total_efficiency_readings tandem_matching_analysis)

/-- The full analysis-and-report pipeline of the main flow of `app.py`, as
line list. -/
def runPipelineLines (ts : List PumpTable) : List String :=
  report_lines (mkPumpData ts) (totalUnits (mkPumpData ts))
    (analyze_amperage (mkPumpData ts))
    (analyze_efficiency_distribution (mkPumpData ts)).ranges
    (analyze_efficiency_distribution (mkPumpData ts)).total
    (analyze_efficiency_distribution (mkPumpData ts)).tandem_matching_analysis

/-- The full pipeline's report text. -/
def runPipeline (ts : List PumpTable) : String :=
  generate_report_content (mkPumpData ts) (totalUnits (mkPumpData ts))
    (analyze_amperage (mkPumpData ts))
    (analyze_efficiency_distribution (mkPumpData ts)).ranges
    (analyze_efficiency_distribution (mkPumpData ts)).total
    (analyze_efficiency_distribution (mkPumpData ts)).tandem_matching_analysis

/-- Claim C7 as amended: when a condition selects no strictly-positive
amperage reading, its block never shows the min/max lines, and it shows
"No data available" exactly when the condition's unit count is 0 (all
relevant columns absent or all tables empty); with a positive unit count the
block shows only the total-units line instead. -/
theorem amp_block_no_positive_readings (ds : List Sheet) (c : Cond)
    (h : collectedAmpsSpec c ds = []) :
    condBlock (analyze_amperage ds c) c =
      [condName c ++ " Conditions:"] ++
      (if 0 < (analyze_amperage ds c).unit_count
       then ["  Total units analyzed: " ++ toString (analyze_amperage ds c).unit_count]
       else ["  No data available"]) ++ [""] := by
  have hmax : (analyze_amperage ds c).max = 0 := by
    rw [analyze_amperage_max_eq, h]
    rfl
  have hmat : (analyze_amperage ds c).tandem_analysis = [] :=
    analyze_amp_matches_nil ds c h
  unfold condBlock
  rw [hmax, hmat]
  by_cases huc : 0 < (analyze_amperage ds c).unit_count
  · rw [if_pos huc, if_pos huc, if_neg (lt_irrefl 0)]
    simp
  · rw [if_neg huc, if_neg huc]

/-- A pipeline input whose only 0-bar amperage reading is present but 0. -/
def zeroAmpTable : PumpTable :=
  { label := "SinglePump", columns := ["0 Bar Amp P1"],
    rows := [{ srNo := none, cells := [("0 Bar Amp P1", 0)] }] }

/-- Claim C7, counterexample: with all 0-bar readings equal to 0 but the
column present on a non-empty table, the unit count is positive, so the 0-bar
block does NOT render "No data available" (it renders the total-units line);
the claim's "0 or missing" premise is too broad. -/
theorem amp_block_no_data_cex :
    (∀ r ∈ zeroAmpTable.rows, r.val "0 Bar Amp P1" = 0) ∧
    0 < (analyze_amperage (mkPumpData [zeroAmpTable]) Cond.bar0).unit_count ∧
    "  No data available" ∉
      condBlock (analyze_amperage (mkPumpData [zeroAmpTable]) Cond.bar0) Cond.bar0 := by
  refine ⟨by decide, by decide, ?_⟩
  decide

/-- Witness for the amended claim C7 at the concrete all-zero-readings
input. -/
theorem amp_block_no_positive_readings_witness :
    condBlock (analyze_amperage (mkPumpData [zeroAmpTable]) Cond.bar0) Cond.bar0 =
      [condName Cond.bar0 ++ " Conditions:"] ++
      (if 0 < (analyze_amperage (mkPumpData [zeroAmpTable]) Cond.bar0).unit_count
       then ["  Total units analyzed: " ++
              toString (analyze_amperage (mkPumpData [zeroAmpTable]) Cond.bar0).unit_count]
       else ["  No data available"]) ++ [""] :=
  amp_block_no_positive_readings (mkPumpData [zeroAmpTable]) Cond.bar0 (by decide)

/-- Claim C8: report generation is a pure function of its inputs — running
the full pipeline twice on the same tables yields byte-identical text. -/
theorem report_deterministic (ts : List PumpTable) : runPipeline ts = runPipeline ts := rfl

lemma sheetCounted_nil_of_one_sided (s : Sheet) (hT : s.ptype = PumpType.Tandem)
    (h : ∀ r ∈ s.data.rows, ¬ (0 < tGet s.data r "Eff%P1" ∧ 0 < tGet s.data r "Eff%P2")) :
    sheetCountedSpec s = [] := by
  unfold sheetCountedSpec
  rw [hT]
  refine flatten_nil_of_all_nil _ ?_
  intro l hl
  rcases List.mem_map.mp hl with ⟨r, hr, rfl⟩
  unfold effRowVals
  rw [if_neg (h r hr)]

lemma sheetCounted_nil_of_no_positive_single (s : Sheet) (hS : s.ptype = PumpType.Single)
    (h : ∀ r ∈ s.data.rows, ¬ (0 < r.val "Eff%P1")) :
    sheetCountedSpec s = [] := by
  unfold sheetCountedSpec
  rw [hS]
  by_cases hcol : "Eff%P1" ∈ s.data.columns
  · rw [if_pos hcol, List.filter_eq_nil_iff]
    intro v hv
    rcases List.mem_map.mp hv with ⟨r, hr, rfl⟩
    simpa using h r hr
  · rw [if_neg hcol]

lemma eff_total_append_nil (ts : List PumpTable) (t : PumpTable)
    (h : sheetCountedSpec (mkSheet t) = []) :
    (analyze_efficiency_distribution (mkPumpData (ts ++ [t]))).total =
      (analyze_efficiency_distribution (mkPumpData ts)).total := by
  rw [analyze_eff_total_eq, analyze_eff_total_eq]
  unfold mkPumpData countedReadingsSpec
  rw [List.map_append, List.map_append, List.flatten_append, List.length_append]
  simp [h]

lemma totalUnits_append (ts : List PumpTable) (t : PumpTable) :
    totalUnits (mkPumpData (ts ++ [t])) = totalUnits (mkPumpData ts) + t.rows.length := by
  unfold totalUnits mkPumpData
  rw [List.map_append, List.map_append, List.sum_append]
  rfl

/-- Claim C10: the "Total individual pumps" line prints the efficiency
analyzer's individual-reading total and "Total units tested" the sum of
record counts; consequently appending a Tandem table with no both-positive
record, or a Single table with no positive reading, grows the units total by
its record count while leaving the individual-pumps number unchanged. -/
theorem report_total_pumps_from_analyzer (ts : List PumpTable) :
    ("Total individual pumps: " ++
        toString (analyze_efficiency_distribution (mkPumpData ts)).total)
      ∈ runPipelineLines ts ∧
    ("Total units tested: " ++ toString (totalUnits (mkPumpData ts)))
      ∈ runPipelineLines ts ∧
    (∀ t : PumpTable, determine_pump_type t = PumpType.Tandem →
      (∀ r ∈ t.rows,
        ¬ (0 < tGet (mkSheet t).data r "Eff%P1" ∧ 0 < tGet (mkSheet t).data r "Eff%P2")) →
      (analyze_efficiency_distribution (mkPumpData (ts ++ [t]))).total =
        (analyze_efficiency_distribution (mkPumpData ts)).total ∧
      totalUnits (mkPumpData (ts ++ [t])) = totalUnits (mkPumpData ts) + t.rows.length) ∧
    (∀ t : PumpTable, determine_pump_type t = PumpType.Single →
      (∀ r ∈ t.rows, ¬ (0 < r.val "Eff%P1")) →
      (analyze_efficiency_distribution (mkPumpData (ts ++ [t]))).total =
        (analyze_efficiency_distribution (mkPumpData ts)).total ∧
      totalUnits (mkPumpData (ts ++ [t])) = totalUnits (mkPumpData ts) + t.rows.length) := by
  refine ⟨?_, ?_, ?_, ?_⟩
  · simp [runPipelineLines, report_lines, List.mem_append]
  · simp [runPipelineLines, report_lines, List.mem_append]
  · intro t hT h
    have hs : (mkSheet t).ptype = PumpType.Tandem := hT
    exact ⟨eff_total_append_nil ts t (sheetCounted_nil_of_one_sided (mkSheet t) hs h),
      totalUnits_append ts t⟩
  · intro t hS h
    have hs : (mkSheet t).ptype = PumpType.Single := hS
    have h2 : ∀ r ∈ (mkSheet t).data.rows, ¬ (0 < r.val "Eff%P1") := h
    exact ⟨eff_total_append_nil ts t (sheetCounted_nil_of_no_positive_single (mkSheet t) hs h2),
      totalUnits_append ts t⟩

/-- A one-sided Tandem pipeline table for the C10 witness. -/
def oneSidedTable : PumpTable :=
  { label := "TandemPump", columns := ["Eff%P1", "Eff%P2"], rows := [oneSidedRow] }

/-- A Single pipeline table with no positive efficiency reading, for the C10
witness. -/
def noReadingTable : PumpTable :=
  { label := "SinglePump", columns := ["Eff%P1"],
    rows := [{ srNo := none, cells := [("Eff%P1", 0)] }] }

/-- Witness for claim C10 at concrete inputs: the printed lines on the empty
run, and the units-vs-pumps divergence for a one-sided Tandem table and a
no-reading Single table. -/
theorem report_total_pumps_from_analyzer_witness :
    ("Total individual pumps: " ++
        toString (analyze_efficiency_distribution (mkPumpData [])).total)
      ∈ runPipelineLines [] ∧
    ((analyze_efficiency_distribution (mkPumpData ([] ++ [oneSidedTable]))).total =
        (analyze_efficiency_distribution (mkPumpData [])).total ∧
      totalUnits (mkPumpData ([] ++ [oneSidedTable])) =
        totalUnits (mkPumpData []) + oneSidedTable.rows.length) ∧
    ((analyze_efficiency_distribution (mkPumpData ([] ++ [noReadingTable]))).total =
        (analyze_efficiency_distribution (mkPumpData [])).total ∧
      totalUnits (mkPumpData ([] ++ [noReadingTable])) =
        totalUnits (mkPumpData []) + noReadingTable.rows.length) :=
  ⟨(report_total_pumps_from_analyzer []).1,
   (report_total_pumps_from_analyzer []).2.2.1 oneSidedTable (by decide) (by decide),
   (report_total_pumps_from_analyzer []).2.2.2 noReadingTable (by decide) (by decide)⟩

end Pump
